import Mathlib

/-!
Shallow embedding of the statistics and quality-scoring engine of
`eda-cli` (`src/eda_cli/core.py`): `compute_missing_stats`,
`compute_numeric_stats`, `compute_categorical_stats`,
`compute_quality_flags`, `compute_basic_stats` and
`generate_report_data`.

Modelling conventions:
* a table is a list of named, kinded columns whose cells are
  `Option Val`, with `none` standing for a null/NaN cell;
* Python/NumPy float results are modelled by exact rationals extended
  with the IEEE special values the code can actually produce
  (`PyFloat`); float arithmetic on the magnitudes handled here is
  exact, so rational arithmetic is a faithful model of the comparisons
  the code performs;
* Python integer division by zero (a genuine `ZeroDivisionError`, as
  opposed to NumPy's warning-plus-NaN semantics) is modelled by
  `Except String`;
* `float(series.std())` is a square root of a rational, in general
  irrational, so it is kept symbolically in `StdVal`.
-/

deriving instance DecidableEq for Except

unseal Rat.mul Rat.add Rat.sub Rat.inv

namespace EdaCore

/-- A cell value: the pandas cells relevant to the core are numbers or
strings. -/
inductive Val where
  | vnum (q : ℚ)
  | vstr (s : String)
  deriving DecidableEq

/-- Declared column kind, as used by `select_dtypes`: `numeric` for
`np.number` dtypes, `obj` for `object`/`category` dtypes. -/
inductive ColKind where
  | numeric
  | obj
  deriving DecidableEq

/-- One named column of a table. -/
structure Col where
  name : String
  kind : ColKind
  cells : List (Option Val)
  deriving DecidableEq

/-- A pandas `DataFrame`: `nrows` is `len(df)`, `cols` the ordered
columns. -/
structure DataFrame where
  nrows : ℕ
  cols : List Col
  deriving DecidableEq

/-- Well-formedness: every column has exactly `nrows` cells. -/
def DataFrame.wf (df : DataFrame) : Prop :=
  ∀ c ∈ df.cols, c.cells.length = df.nrows

/-- A Python/NumPy float result: an exact rational value, NaN, or a
signed infinity. -/
inductive PyFloat where
  | val (q : ℚ)
  | nan
  | inf
  | ninf
  deriving DecidableEq

/-- NumPy true division (also pandas element-wise division): division
by zero yields NaN for `0/0` and a signed infinity otherwise, with a
runtime warning but no exception. -/
def npDiv (a b : ℚ) : PyFloat :=
  if b = 0 then
    if a = 0 then .nan else if 0 < a then .inf else .ninf
  else .val (a / b)

/-- Python float comparison `x > t`: NaN compares false against
everything. -/
def pfGt (x : PyFloat) (t : ℚ) : Bool :=
  match x with
  | .val q => decide (t < q)
  | .nan => false
  | .inf => true
  | .ninf => false

/-- ASCII lower-casing of one character, as `str.lower` acts on the
ASCII column names occurring here. -/
def pyLower (c : Char) : Char :=
  if 'A' ≤ c ∧ c ≤ 'Z' then Char.ofNat (c.toNat + 32) else c

/-- `s.lower()` on an ASCII string. -/
def lowerStr (s : String) : String :=
  String.mk (s.toList.map pyLower)

/-- Does the second list start with the first one? -/
def hasPrefixL : List Char → List Char → Bool
  | [], _ => true
  | _ :: _, [] => false
  | a :: as, b :: bs => a = b && hasPrefixL as bs

/-- Does the second list contain the first one as a contiguous
sublist? -/
def hasSubstrL (needle : List Char) : List Char → Bool
  | [] => needle.isEmpty
  | b :: bs => hasPrefixL needle (b :: bs) || hasSubstrL needle bs

/-- Python's substring test `needle in hay` on strings. -/
def pyIn (needle hay : String) : Bool :=
  hasSubstrL needle.toList hay.toList

/-- The distinct elements of a list in order of first occurrence (the
order pandas hash-based uniques produce). -/
def firstUniq {α : Type} [DecidableEq α] : List α → List α
  | [] => []
  | a :: as => a :: (firstUniq as).filter (fun x => decide (x ≠ a))

/-- Insert an element into a list, before the first element it relates
to by `le`. -/
def insSorted {α : Type} (le : α → α → Bool) (a : α) : List α → List α
  | [] => [a]
  | b :: bs => if le a b then a :: b :: bs else b :: insSorted le a bs

/-- Stable insertion sort: elements comparing equal keep their original
relative order. -/
def insSort {α : Type} (le : α → α → Bool) : List α → List α
  | [] => []
  | a :: as => insSorted le a (insSort le as)

/-- The non-null values of a column, in order. -/
def nonNullVals (cells : List (Option Val)) : List Val :=
  cells.filterMap id

/-- The numeric values of a column (numeric columns hold only numbers
and nulls). -/
def numVals (cells : List (Option Val)) : List ℚ :=
  cells.filterMap (fun o =>
    match o with
    | some (.vnum q) => some q
    | _ => none)

/-- `series.isnull().sum()`: the number of null cells. -/
def nullCount (cells : List (Option Val)) : ℕ :=
  cells.count none

/-- `series.nunique()` with its default `dropna=True`: the number of
distinct non-null values. -/
def nuniqueNN (cells : List (Option Val)) : ℕ :=
  (firstUniq (nonNullVals cells)).length

/-- The flags produced by `series.duplicated()` (default
`keep="first"`): a cell is flagged when an equal cell occurred
earlier; pandas treats null as equal to null here. -/
def dupFlags (seen : List (Option Val)) : List (Option Val) → List Bool
  | [] => []
  | x :: xs => decide (x ∈ seen) :: dupFlags (x :: seen) xs

/-- `series.duplicated().sum()`: the number of occurrences beyond the
first of each value. -/
def dupCount (cells : List (Option Val)) : ℕ :=
  (dupFlags [] cells).countP id

/-- Result record of `compute_missing_stats`. -/
structure MissingStats where
  missing_counts : List (String × ℕ)
  missing_shares : List (String × PyFloat)
  cols_with_missing : List String
  total_missing : ℕ
  total_missing_share : PyFloat
  deriving DecidableEq

/-- `compute_missing_stats` (core.py lines 27–41): per-column null
counts, null shares (`counts / len(df)`, NumPy division), the columns
with nulls in original column order, and the dataset-wide totals. -/
def compute_missing_stats (df : DataFrame) : MissingStats :=
  let missing_counts := df.cols.map (fun c => (c.name, nullCount c.cells))
  let total : ℕ := (missing_counts.map (·.2)).sum
  { missing_counts := missing_counts
    missing_shares := missing_counts.map (fun p => (p.1, npDiv p.2 df.nrows))
    cols_with_missing := (missing_counts.filter (fun p => decide (0 < p.2))).map (·.1)
    total_missing := total
    total_missing_share := npDiv total (df.nrows * df.cols.length) }

/-- Result of `float(series.std())` with pandas' default `ddof=1`: NaN
when fewer than two non-null values are present, otherwise the square
root of the sample variance, kept symbolically because the square root
of a rational is in general irrational.  In both cases the Python value
is a `float`, never an explicit "undefined" marker. -/
inductive StdVal where
  | nan
  | sqrt (variance : ℚ)
  deriving DecidableEq

/-- `float(series.mean())` (skips nulls; NaN when no non-null value
exists). -/
def pdMean (xs : List ℚ) : PyFloat :=
  match xs with
  | [] => .nan
  | _ => .val (xs.sum / xs.length)

/-- `float(series.std())` (`ddof=1`, skips nulls). -/
def sampleStd (xs : List ℚ) : StdVal :=
  if xs.length ≤ 1 then .nan
  else
    let m : ℚ := xs.sum / xs.length
    .sqrt ((xs.map (fun x => (x - m) ^ 2)).sum / ((xs.length : ℚ) - 1))

/-- `float(series.min())` (skips nulls; NaN when no non-null value
exists). -/
def listMinQ (xs : List ℚ) : PyFloat :=
  match xs with
  | [] => .nan
  | x :: rest => .val (rest.foldr min x)

/-- `float(series.max())` (skips nulls; NaN when no non-null value
exists). -/
def listMaxQ (xs : List ℚ) : PyFloat :=
  match xs with
  | [] => .nan
  | x :: rest => .val (rest.foldr max x)

/-- `float(series.quantile(q))` with pandas' default linear
interpolation, over the non-null values; NaN when no non-null value
exists. -/
def pdQuantile (xs : List ℚ) (q : ℚ) : PyFloat :=
  match xs with
  | [] => .nan
  | _ =>
    let s := insSort (fun a b => decide (a ≤ b)) xs
    let n := s.length
    let pos := q * ((n : ℚ) - 1)
    let i := pos.floor.toNat
    let frac := pos - (i : ℚ)
    let lo := s.getD i 0
    let hi := s.getD (min (i + 1) (n - 1)) 0
    .val (lo + frac * (hi - lo))

/-- Per-column record of `compute_numeric_stats`. -/
structure NumericColStats where
  mean : PyFloat
  std : StdVal
  min : PyFloat
  max : PyFloat
  median : PyFloat
  q25 : PyFloat
  q75 : PyFloat
  zeros_count : ℕ
  zeros_share : PyFloat
  deriving DecidableEq

/-- The statistics dict built for one numeric column (core.py lines
53–63): `zeros_count` is `(series == 0).sum()` (a null never equals 0)
and `zeros_share` divides by the full `len(df)`, nulls included, with
NumPy division semantics. -/
def numColStats (nrows : ℕ) (cells : List (Option Val)) : NumericColStats :=
  let xs := numVals cells
  { mean := pdMean xs
    std := sampleStd xs
    min := listMinQ xs
    max := listMaxQ xs
    median := pdQuantile xs (1 / 2)
    q25 := pdQuantile xs (1 / 4)
    q75 := pdQuantile xs (3 / 4)
    zeros_count := xs.count 0
    zeros_share := npDiv (xs.count 0) nrows }

/-- Result record of `compute_numeric_stats`. -/
structure NumericStats where
  numeric_cols : List String
  stats : List (String × NumericColStats)
  deriving DecidableEq

/-- `compute_numeric_stats` (core.py lines 44–68): selects the columns
of numeric dtype and computes `numColStats` for each; an empty column
selection yields the empty record, not an error. -/
def compute_numeric_stats (df : DataFrame) : NumericStats :=
  let cs := df.cols.filter (fun c => decide (c.kind = .numeric))
  { numeric_cols := cs.map (·.name)
    stats := cs.map (fun c => (c.name, numColStats df.nrows c.cells)) }

/-- Lexicographic comparison of character lists by code point, the
order Python uses on strings. -/
def charListLE : List Char → List Char → Bool
  | [], _ => true
  | _ :: _, [] => false
  | a :: as, b :: bs => if a < b then true else if b < a then false else charListLE as bs

/-- Python string comparison `s <= t`. -/
def strLE (s t : String) : Bool :=
  charListLE s.toList t.toList

/-- The order used when pandas sorts the tied modes of a column:
numbers by value, strings lexicographically.  Columns mixing numbers
and strings never reach a cross-kind comparison in this development;
the cross-kind case is fixed arbitrarily (numbers first) to keep the
order total. -/
def valLE : Val → Val → Bool
  | .vnum a, .vnum b => decide (a ≤ b)
  | .vnum _, .vstr _ => true
  | .vstr _, .vnum _ => false
  | .vstr a, .vstr b => strLE a b

/-- `str(v)` as applied to a mode value; for the string columns the
claims exercise this is the string itself. -/
def valToStr : Val → String
  | .vstr s => s
  | .vnum q => toString q

/-- `series.value_counts(dropna=False)`: one entry per distinct cell
class (null included as the class `none` when present), tallied with
nulls comparing equal, in descending frequency order; the stable sort
keeps ties in first-encountered order. -/
def valueCounts (cells : List (Option Val)) : List (Option Val × ℕ) :=
  insSort (fun a b => decide (b.2 ≤ a.2))
    ((firstUniq cells).map (fun v => (v, cells.count v)))

/-- The largest frequency among the distinct non-null values. -/
def maxNNCount (cells : List (Option Val)) : ℕ :=
  ((firstUniq (nonNullVals cells)).map
    (fun v => (nonNullVals cells).count v)).foldr max 0

/-- `series.mode()` (default `dropna=True`): the distinct non-null
values of maximal frequency, returned in ascending sorted order;
empty when the column has no non-null value. -/
def modeList (cells : List (Option Val)) : List Val :=
  insSort valLE
    ((firstUniq (nonNullVals cells)).filter
      (fun v => decide ((nonNullVals cells).count v = maxNNCount cells)))

/-- `str(series.mode().iloc[0]) if not series.mode().empty else None`
(core.py line 85). -/
def pdMode (cells : List (Option Val)) : Option String :=
  (modeList cells).head?.map valToStr

/-- `frame.head(k)` semantics on a list: the first `k` entries for
`k ≥ 0`, everything but the last `|k|` entries for negative `k`. -/
def pdHead {α : Type} (k : ℤ) (l : List α) : List α :=
  if 0 ≤ k then l.take k.toNat else l.take (l.length - (-k).toNat)

/-- Per-column record of `compute_categorical_stats`. -/
structure CatColStats where
  unique_count : ℕ
  mode : Option String
  mode_count : ℕ
  top_values : List (Option Val × ℕ)
  deriving DecidableEq

/-- The statistics dict built for one categorical column (core.py
lines 80–88): `unique_count` uses `nunique()` (nulls dropped), `mode`
uses `mode()` (nulls dropped, result sorted), while `mode_count` is
the top entry of `value_counts(dropna=False)` (nulls included). -/
def catColStats (top_k : ℤ) (cells : List (Option Val)) : CatColStats :=
  let vc := valueCounts cells
  { unique_count := nuniqueNN cells
    mode := pdMode cells
    mode_count :=
      match vc with
      | [] => 0
      | p :: _ => p.2
    top_values := pdHead top_k vc }

/-- Result record of `compute_categorical_stats`. -/
structure CatStats where
  categorical_cols : List String
  stats : List (String × CatColStats)
  deriving DecidableEq

/-- `compute_categorical_stats` (core.py lines 71–93; Python default
`top_k=5`): selects the columns of object/category dtype and computes
`catColStats` for each. -/
def compute_categorical_stats (df : DataFrame) (top_k : ℤ) : CatStats :=
  let cs := df.cols.filter (fun c => decide (c.kind = .obj))
  { categorical_cols := cs.map (·.name)
    stats := cs.map (fun c => (c.name, catColStats top_k c.cells)) }

/-- Modelled from the spec: the mode convention the specification
describes for the Categorical Profiler — "the most frequent value
(ties broken by first-encountered insertion order among tied values)".
This is not the source's convention; it exists only to be compared
with `pdMode`. -/
def modeFirstEncountered (cells : List (Option Val)) : Option String :=
  (((firstUniq (nonNullVals cells)).filter
      (fun v => decide ((nonNullVals cells).count v = maxNNCount cells))).head?).map
    valToStr

/-- Evidence entry of the high-cardinality rule. -/
structure HighCardEntry where
  column : String
  unique_count : ℕ
  unique_ratio : ℚ
  deriving DecidableEq

/-- Evidence entry of the suspicious-identifier rule. -/
structure IdDupEntry where
  column : String
  duplicate_count : ℕ
  duplicate_share : PyFloat
  deriving DecidableEq

/-- Evidence entry of the many-zeros rule. -/
structure ZeroEntry where
  column : String
  zero_count : ℕ
  zero_share : PyFloat
  deriving DecidableEq

/-- The per-rule penalty dict of `compute_quality_flags` (core.py
lines 191–197). -/
structure Penalties where
  high_missing : ℕ
  constant_cols : ℕ
  high_cardinality : ℕ
  id_duplicates : ℕ
  many_zeros : ℕ
  deriving DecidableEq

/-- The penalty dict as the code builds it: evidence count times the
fixed per-rule weight. -/
def penaltiesOfCounts (hm cc hc idd mz : ℕ) : Penalties :=
  { high_missing := hm * 15
    constant_cols := cc * 10
    high_cardinality := hc * 8
    id_duplicates := idd * 12
    many_zeros := mz * 7 }

/-- `sum(penalties.values())` (core.py line 199). -/
def totalPenalty (p : Penalties) : ℕ :=
  p.high_missing + p.constant_cols + p.high_cardinality + p.id_duplicates + p.many_zeros

/-- The quality score as a function of the five evidence counts
(core.py lines 188–200): `max(0, 100 - total_penalty)`. -/
def scoreOfCounts (hm cc hc idd mz : ℕ) : ℤ :=
  max 0 (100 - (totalPenalty (penaltiesOfCounts hm cc hc idd mz) : ℤ))

/-- Result record of `compute_quality_flags`, one field per dict key
the code sets. -/
structure QualityFlags where
  has_high_missing_share : Bool
  high_missing_cols : List String
  high_missing_threshold : ℚ
  has_constant_columns : Bool
  constant_columns : List String
  has_high_cardinality_categoricals : Bool
  high_cardinality_cols : List HighCardEntry
  high_cardinality_threshold : ℚ
  has_suspicious_id_duplicates : Bool
  suspicious_id_duplicates : List IdDupEntry
  has_many_zero_values : Bool
  many_zeros_cols : List ZeroEntry
  zero_threshold : ℚ
  quality_score : ℤ
  quality_penalties : Penalties
  deriving DecidableEq

/-- Rule 1 (core.py lines 119–122): the columns whose null share
exceeds the threshold, in column order; a NaN share (zero-row table)
compares false. -/
def highMissingCols (df : DataFrame) (min_missing_share : ℚ) : List String :=
  (((compute_missing_stats df).missing_shares).filter
    (fun p => pfGt p.2 min_missing_share)).map (·.1)

/-- Rule 2 (core.py lines 128–131): the columns of any kind with at
most one distinct non-null value. -/
def constantCols (df : DataFrame) : List String :=
  (df.cols.filter (fun c => decide (nuniqueNN c.cells ≤ 1))).map (·.name)

/-- Rule 3 (core.py lines 137–147): for each categorical column,
`unique_count / len(df)` is Python integer-by-integer division, so a
zero-row table raises `ZeroDivisionError` here; entries whose ratio
exceeds 0.5 are collected. -/
def highCardEntries (nrows : ℕ) : List (String × CatColStats) → Except String (List HighCardEntry)
  | [] => .ok []
  | (name, st) :: rest =>
    if nrows = 0 then .error "ZeroDivisionError"
    else
      match highCardEntries nrows rest with
      | .error e => .error e
      | .ok tail =>
        let ratio : ℚ := (st.unique_count : ℚ) / (nrows : ℚ)
        if 1 / 2 < ratio then
          .ok ({ column := name, unique_count := st.unique_count, unique_ratio := ratio } :: tail)
        else .ok tail

/-- Rule 4, candidate selection (core.py line 155): the columns whose
name satisfies `"id" in col.lower() or "ID" in col`. -/
def idCandidates (df : DataFrame) : List Col :=
  df.cols.filter (fun c => pyIn "id" (lowerStr c.name) || pyIn "ID" c.name)

/-- Rule 4, evidence (core.py lines 158–165): each candidate column
with at least one duplicated value, with its duplicate count and the
share `duplicate_count / len(df)`. -/
def suspiciousEntries (df : DataFrame) : List IdDupEntry :=
  (idCandidates df).filterMap (fun c =>
    if 0 < dupCount c.cells then
      some { column := c.name
             duplicate_count := dupCount c.cells
             duplicate_share := npDiv (dupCount c.cells) df.nrows }
    else none)

/-- Rule 5 (core.py lines 171–181): the numeric columns whose zero
share exceeds 0.4. -/
def manyZerosEntries (df : DataFrame) : List ZeroEntry :=
  ((compute_numeric_stats df).stats).filterMap (fun p =>
    if pfGt p.2.zeros_share (2 / 5) then
      some { column := p.1, zero_count := p.2.zeros_count, zero_share := p.2.zeros_share }
    else none)

/-- `compute_quality_flags` (core.py lines 96–205; Python default
`min_missing_share=0.3`, and it calls `compute_categorical_stats`
with its default `top_k=5`).  The only fallible step is rule 3's
integer division. -/
def compute_quality_flags (df : DataFrame) (min_missing_share : ℚ) :
    Except String QualityFlags :=
  match highCardEntries df.nrows (compute_categorical_stats df 5).stats with
  | .error e => .error e
  | .ok hc =>
    let hm := highMissingCols df min_missing_share
    let cc := constantCols df
    let idd := suspiciousEntries df
    let mz := manyZerosEntries df
    .ok { has_high_missing_share := decide (0 < hm.length)
          high_missing_cols := hm
          high_missing_threshold := min_missing_share
          has_constant_columns := decide (0 < cc.length)
          constant_columns := cc
          has_high_cardinality_categoricals := decide (0 < hc.length)
          high_cardinality_cols := hc
          high_cardinality_threshold := 1 / 2
          has_suspicious_id_duplicates := decide (0 < idd.length)
          suspicious_id_duplicates := idd
          has_many_zero_values := decide (0 < mz.length)
          many_zeros_cols := mz
          zero_threshold := 2 / 5
          quality_score := scoreOfCounts hm.length cc.length hc.length idd.length mz.length
          quality_penalties :=
            penaltiesOfCounts hm.length cc.length hc.length idd.length mz.length }

/-- The dtype string pandas would report; the concrete numeric dtype
(`int64` vs `float64`) lives in the external table abstraction and is
collapsed to one representative label per kind. -/
def dtypeLabel : ColKind → String
  | .numeric => "float64"
  | .obj => "object"

/-- Result record of `compute_basic_stats`.  The `memory_usage_mb`
field of the source is omitted: it is produced by the external table
abstraction (`df.memory_usage`), not by the core's own logic, and no
claim mentions it. -/
structure BasicStats where
  num_rows : ℕ
  num_columns : ℕ
  columns : List String
  dtypes : List (String × String)
  deriving DecidableEq

/-- `compute_basic_stats` (core.py lines 15–24). -/
def compute_basic_stats (df : DataFrame) : BasicStats :=
  { num_rows := df.nrows
    num_columns := df.cols.length
    columns := df.cols.map (·.name)
    dtypes := df.cols.map (fun c => (c.name, dtypeLabel c.kind)) }

/-- The configuration echo of `generate_report_data`. -/
structure ReportParams where
  max_hist_columns : ℤ
  top_k_categories : ℤ
  min_missing_share : ℚ
  title : String
  deriving DecidableEq

/-- Result record of `generate_report_data`. -/
structure ReportData where
  title : String
  basic_stats : BasicStats
  missing_stats : MissingStats
  numeric_stats : NumericStats
  categorical_stats : CatStats
  quality_flags : QualityFlags
  report_params : ReportParams
  deriving DecidableEq

/-- `generate_report_data` (core.py lines 208–248; Python defaults
`max_hist_columns=10`, `top_k_categories=5`, `min_missing_share=0.3`):
pure aggregation of the profiler outputs plus the echoed
configuration.  The source performs no validation of the
configuration parameters; the only failure it can propagate is the
quality scorer's division error. -/
def generate_report_data (df : DataFrame) (max_hist_columns top_k_categories : ℤ)
    (min_missing_share : ℚ) (title : String) : Except String ReportData :=
  match compute_quality_flags df min_missing_share with
  | .error e => .error e
  | .ok qf =>
    .ok { title := title
          basic_stats := compute_basic_stats df
          missing_stats := compute_missing_stats df
          numeric_stats := compute_numeric_stats df
          categorical_stats := compute_categorical_stats df top_k_categories
          quality_flags := qf
          report_params :=
            { max_hist_columns := max_hist_columns
              top_k_categories := top_k_categories
              min_missing_share := min_missing_share
              title := title } }

/-- Shorthand for a numeric cell. -/
def oq (q : ℚ) : Option Val := some (.vnum q)

/-- Shorthand for a string cell. -/
def os (s : String) : Option Val := some (.vstr s)

/-- Scenario 5 of the spec: a constant column among varying columns. -/
def df5 : DataFrame :=
  ⟨5, [⟨"x", .numeric, [oq 1, oq 2, oq 3, oq 4, oq 5]⟩,
       ⟨"constant_col", .numeric, [oq 1, oq 1, oq 1, oq 1, oq 1]⟩]⟩

/-- The quality flags `compute_quality_flags` produces for `df5`. -/
def flags5 : QualityFlags :=
  { has_high_missing_share := false
    high_missing_cols := []
    high_missing_threshold := 3 / 10
    has_constant_columns := true
    constant_columns := ["constant_col"]
    has_high_cardinality_categoricals := false
    high_cardinality_cols := []
    high_cardinality_threshold := 1 / 2
    has_suspicious_id_duplicates := false
    suspicious_id_duplicates := []
    has_many_zero_values := false
    many_zeros_cols := []
    zero_threshold := 2 / 5
    quality_score := 90
    quality_penalties := ⟨0, 10, 0, 0, 0⟩ }

/-- Scenario 6 of the spec: `user_id=[1,2,2,3,4]` with one duplicate. -/
def df7 : DataFrame :=
  ⟨5, [⟨"user_id", .numeric, [oq 1, oq 2, oq 2, oq 3, oq 4]⟩,
       ⟨"value", .numeric, [oq 10, oq 20, oq 30, oq 40, oq 50]⟩]⟩

/-- The quality flags `compute_quality_flags` produces for `df7`. -/
def flags7 : QualityFlags :=
  { has_high_missing_share := false
    high_missing_cols := []
    high_missing_threshold := 3 / 10
    has_constant_columns := false
    constant_columns := []
    has_high_cardinality_categoricals := false
    high_cardinality_cols := []
    high_cardinality_threshold := 1 / 2
    has_suspicious_id_duplicates := true
    suspicious_id_duplicates := [⟨"user_id", 1, .val (1 / 5)⟩]
    has_many_zero_values := false
    many_zeros_cols := []
    zero_threshold := 2 / 5
    quality_score := 88
    quality_penalties := ⟨0, 0, 0, 12, 0⟩ }

/-- A zero-row table with one categorical column. -/
def df0 : DataFrame := ⟨0, [⟨"B", .obj, []⟩]⟩

/-- A numeric column with no non-null value. -/
def colA3 : Col := ⟨"A", .numeric, [none, none]⟩

/-- A table holding only `colA3`. -/
def df3 : DataFrame := ⟨2, [colA3]⟩

/-- A categorical column with two distinct non-null values and a
null. -/
def colBB : Col := ⟨"B", .obj, [os "a", os "b", none]⟩

/-- A table holding only `colBB`. -/
def dfB : DataFrame := ⟨3, [colBB]⟩

/-- A one-row numeric table, used with out-of-domain configuration
parameters. -/
def df1 : DataFrame := ⟨1, [⟨"A", .numeric, [oq 1]⟩]⟩

/-- Scenario 3 of the spec: `B=[0,0,1,2,3]`. -/
def colB8 : Col := ⟨"B", .numeric, [oq 0, oq 0, oq 1, oq 2, oq 3]⟩

/-- A table holding only `colB8`. -/
def df8 : DataFrame := ⟨5, [colB8]⟩

/-- A categorical column whose two values are tied in frequency, with
the lexicographically larger one occurring first. -/
def colM : Col := ⟨"M", .obj, [os "b", os "a"]⟩

/-- A table holding only `colM`. -/
def dfM : DataFrame := ⟨2, [colM]⟩

/-- A categorical column whose most frequent value class is the null
class. -/
def colT : Col := ⟨"T", .obj, [none, none, os "a"]⟩

/-- A table holding only `colT`. -/
def dfT : DataFrame := ⟨3, [colT]⟩

theorem mem_insSorted {α : Type} (le : α → α → Bool) (a x : α) (l : List α) :
    x ∈ insSorted le a l ↔ x = a ∨ x ∈ l := by
  induction l with
  | nil => simp [insSorted]
  | cons b bs ih =>
    simp only [insSorted]
    by_cases hb : le a b = true
    · rw [if_pos hb]
      simp [List.mem_cons]
    · rw [if_neg hb]
      simp [List.mem_cons, ih]
      tauto

theorem mem_insSort {α : Type} (le : α → α → Bool) (x : α) (l : List α) :
    x ∈ insSort le l ↔ x ∈ l := by
  induction l with
  | nil => simp [insSort]
  | cons a as ih => simp [insSort, mem_insSorted, ih, List.mem_cons]

theorem pairwise_insSorted {α : Type} (le : α → α → Bool)
    (tot : ∀ a b, le a b = true ∨ le b a = true)
    (htr : ∀ a b c, le a b = true → le b c = true → le a c = true)
    (a : α) (l : List α) (hl : l.Pairwise (fun x y => le x y = true)) :
    (insSorted le a l).Pairwise (fun x y => le x y = true) := by
  induction l with
  | nil => simp [insSorted]
  | cons b bs ih =>
    rcases List.pairwise_cons.mp hl with ⟨hb, hbs⟩
    simp only [insSorted]
    by_cases hab : le a b = true
    · rw [if_pos hab]
      refine List.pairwise_cons.mpr ⟨?_, hl⟩
      intro x hx
      rcases List.mem_cons.mp hx with rfl | hx
      · exact hab
      · exact htr a b x hab (hb x hx)
    · rw [if_neg hab]
      have hba : le b a = true := (tot a b).resolve_left hab
      refine List.pairwise_cons.mpr ⟨?_, ih hbs⟩
      intro x hx
      rcases (mem_insSorted le a x bs).mp hx with rfl | hx
      · exact hba
      · exact hb x hx

theorem pairwise_insSort {α : Type} (le : α → α → Bool)
    (tot : ∀ a b, le a b = true ∨ le b a = true)
    (htr : ∀ a b c, le a b = true → le b c = true → le a c = true)
    (l : List α) :
    (insSort le l).Pairwise (fun x y => le x y = true) := by
  induction l with
  | nil => simp [insSort]
  | cons a as ih => exact pairwise_insSorted le tot htr a (insSort le as) ih

theorem insSort_head_le {α : Type} (le : α → α → Bool)
    (tot : ∀ a b, le a b = true ∨ le b a = true)
    (htr : ∀ a b c, le a b = true → le b c = true → le a c = true)
    (l : List α) (h : α) (t : List α) (x : α)
    (heq : insSort le l = h :: t) (hx : x ∈ l) : le h x = true := by
  have hmem : x ∈ insSort le l := (mem_insSort le x l).mpr hx
  rw [heq] at hmem
  have hp := pairwise_insSort le tot htr l
  rw [heq] at hp
  rcases List.mem_cons.mp hmem with rfl | hmem
  · exact (tot x x).elim id id
  · exact (List.pairwise_cons.mp hp).1 x hmem

theorem mem_firstUniq {α : Type} [DecidableEq α] (x : α) (l : List α) :
    x ∈ firstUniq l ↔ x ∈ l := by
  induction l with
  | nil => simp [firstUniq]
  | cons a as ih =>
    simp only [firstUniq, List.mem_cons, List.mem_filter, decide_eq_true_eq]
    constructor
    · rintro (rfl | ⟨hx, _⟩)
      · exact Or.inl rfl
      · exact Or.inr (ih.mp hx)
    · rintro (rfl | hx)
      · exact Or.inl rfl
      · by_cases hxa : x = a
        · exact Or.inl hxa
        · exact Or.inr ⟨ih.mpr hx, hxa⟩

theorem nodup_firstUniq {α : Type} [DecidableEq α] (l : List α) :
    (firstUniq l).Nodup := by
  induction l with
  | nil => simp [firstUniq]
  | cons a as ih =>
    simp only [firstUniq]
    refine List.nodup_cons.mpr ⟨?_, List.Nodup.filter _ ih⟩
    intro hmem
    have := (List.mem_filter.mp hmem).2
    simp at this

theorem length_firstUniq {α : Type} [DecidableEq α] (l : List α) :
    (firstUniq l).length = l.toFinset.card := by
  have h1 : (firstUniq l).toFinset = l.toFinset := by
    ext x
    simp [List.mem_toFinset, mem_firstUniq]
  rw [← h1, List.toFinset_card_of_nodup (nodup_firstUniq l)]

theorem mem_nonNullVals (cells : List (Option Val)) (v : Val) :
    v ∈ nonNullVals cells ↔ (some v) ∈ cells := by
  simp [nonNullVals, List.mem_filterMap, id]

theorem count_nonNullVals (cells : List (Option Val)) (v : Val) :
    (nonNullVals cells).count v = cells.count (some v) := by
  induction cells with
  | nil => rfl
  | cons o rest ih =>
    cases o with
    | none =>
      have h1 : nonNullVals (none :: rest) = nonNullVals rest := rfl
      rw [h1, List.count_cons, ih]
      simp
    | some w =>
      have h1 : nonNullVals (some w :: rest) = w :: nonNullVals rest := rfl
      rw [h1, List.count_cons, List.count_cons, ih]
      by_cases hw : w = v
      · subst hw
        simp
      · simp [hw]

theorem count_numVals (cells : List (Option Val)) (q : ℚ) :
    (numVals cells).count q = cells.count (some (.vnum q)) := by
  induction cells with
  | nil => rfl
  | cons o rest ih =>
    cases o with
    | none =>
      have h1 : numVals (none :: rest) = numVals rest := rfl
      rw [h1, List.count_cons, ih]
      simp
    | some w =>
      cases w with
      | vnum r =>
        have h1 : numVals (some (.vnum r) :: rest) = r :: numVals rest := rfl
        rw [h1, List.count_cons, List.count_cons, ih]
        by_cases hr : r = q
        · subst hr
          simp
        · simp [hr]
      | vstr s =>
        have h1 : numVals (some (.vstr s) :: rest) = numVals rest := rfl
        rw [h1, List.count_cons, ih]
        simp

theorem foldr_max_mem (l : List ℕ) (hl : l ≠ []) : l.foldr max 0 ∈ l := by
  induction l with
  | nil => exact absurd rfl hl
  | cons a as ih =>
    cases as with
    | nil => simp
    | cons b bs =>
      have hfold : List.foldr max 0 (a :: b :: bs) = max a (List.foldr max 0 (b :: bs)) := rfl
      rw [hfold]
      rcases le_total (List.foldr max 0 (b :: bs)) a with h | h
      · rw [max_eq_left h]
        exact List.mem_cons_self a _
      · rw [max_eq_right h]
        exact List.mem_cons_of_mem a (ih (by simp))

theorem le_foldr_max (l : List ℕ) (x : ℕ) (hx : x ∈ l) : x ≤ l.foldr max 0 := by
  induction l with
  | nil => simp at hx
  | cons a as ih =>
    rcases List.mem_cons.mp hx with rfl | hx
    · exact le_max_left _ _
    · exact le_trans (ih hx) (le_max_right _ _)

theorem charListLE_total (a : List Char) : ∀ b, charListLE a b = true ∨ charListLE b a = true := by
  induction a with
  | nil => intro b; exact Or.inl rfl
  | cons x xs ih =>
    intro b
    cases b with
    | nil => exact Or.inr rfl
    | cons y ys =>
      rcases lt_trichotomy x y with hxy | hxy | hxy
      · left
        simp [charListLE, hxy]
      · subst hxy
        have hnx : ¬ x < x := lt_irrefl x
        rcases ih ys with h | h
        · left
          simp [charListLE, hnx, h]
        · right
          simp [charListLE, hnx, h]
      · right
        simp [charListLE, hxy]

theorem charListLE_trans (a : List Char) :
    ∀ b c, charListLE a b = true → charListLE b c = true → charListLE a c = true := by
  induction a with
  | nil => intro b c _ _; rfl
  | cons x xs ih =>
    intro b c hab hbc
    cases b with
    | nil => simp [charListLE] at hab
    | cons y ys =>
      cases c with
      | nil => simp [charListLE] at hbc
      | cons z zs =>
        by_cases h1 : x < y
        · by_cases h2 : y < z
          · have hxz : x < z := lt_trans h1 h2
            simp [charListLE, hxz]
          · by_cases h3 : z < y
            · simp [charListLE, h2, h3] at hbc
            · have hyz : y = z := le_antisymm (not_lt.mp h3) (not_lt.mp h2)
              subst hyz
              simp [charListLE, h1]
        · by_cases h4 : y < x
          · simp [charListLE, h1, h4] at hab
          · have hxy : x = y := le_antisymm (not_lt.mp h4) (not_lt.mp h1)
            subst hxy
            have hab' : charListLE xs ys = true := by
              simpa [charListLE, lt_irrefl] using hab
            by_cases h2 : x < z
            · simp [charListLE, h2]
            · by_cases h3 : z < x
              · simp [charListLE, h2, h3] at hbc
              · have hbc' : charListLE ys zs = true := by
                  simpa [charListLE, h2, h3] using hbc
                have := ih ys zs hab' hbc'
                simpa [charListLE, h2, h3] using this

theorem strLE_total (s t : String) : strLE s t = true ∨ strLE t s = true :=
  charListLE_total s.toList t.toList

theorem strLE_trans (s t u : String) (h1 : strLE s t = true) (h2 : strLE t u = true) :
    strLE s u = true :=
  charListLE_trans s.toList t.toList u.toList h1 h2

theorem valLE_total (a b : Val) : valLE a b = true ∨ valLE b a = true := by
  cases a with
  | vnum qa =>
    cases b with
    | vnum qb =>
      simp only [valLE, decide_eq_true_eq]
      exact le_total qa qb
    | vstr sb => exact Or.inl rfl
  | vstr sa =>
    cases b with
    | vnum qb => exact Or.inr rfl
    | vstr sb => exact strLE_total sa sb

theorem valLE_trans (a b c : Val) (h1 : valLE a b = true) (h2 : valLE b c = true) :
    valLE a c = true := by
  cases a with
  | vnum qa =>
    cases c with
    | vnum qc =>
      cases b with
      | vnum qb =>
        simp only [valLE, decide_eq_true_eq] at h1 h2 ⊢
        exact le_trans h1 h2
      | vstr sb => simp [valLE] at h2
    | vstr sc => rfl
  | vstr sa =>
    cases b with
    | vnum qb => simp [valLE] at h1
    | vstr sb =>
      cases c with
      | vnum qc => simp [valLE] at h2
      | vstr sc => exact strLE_trans sa sb sc h1 h2

theorem hasPrefixL_map (f : Char → Char) (n : List Char) :
    ∀ l, hasPrefixL n l = true → hasPrefixL (n.map f) (l.map f) = true := by
  induction n with
  | nil => intro l _; rfl
  | cons a as ih =>
    intro l h
    cases l with
    | nil => simp [hasPrefixL] at h
    | cons b bs =>
      simp only [hasPrefixL, Bool.and_eq_true, decide_eq_true_eq] at h
      simp only [List.map_cons, hasPrefixL, Bool.and_eq_true, decide_eq_true_eq]
      exact ⟨by rw [h.1], ih bs h.2⟩

theorem hasSubstrL_map (f : Char → Char) (n : List Char) :
    ∀ l, hasSubstrL n l = true → hasSubstrL (n.map f) (l.map f) = true := by
  intro l
  induction l with
  | nil =>
    intro h
    simp only [hasSubstrL, List.isEmpty_iff] at h
    subst h
    rfl
  | cons b bs ih =>
    intro h
    simp only [hasSubstrL, Bool.or_eq_true] at h ⊢
    rcases h with hp | hs
    · exact Or.inl (hasPrefixL_map f n (b :: bs) hp)
    · exact Or.inr (ih hs)

theorem vcLE_total (a b : Option Val × ℕ) :
    (decide (b.2 ≤ a.2)) = true ∨ (decide (a.2 ≤ b.2)) = true := by
  rcases le_total b.2 a.2 with h | h
  · exact Or.inl (decide_eq_true h)
  · exact Or.inr (decide_eq_true h)

theorem vcLE_trans (a b c : Option Val × ℕ)
    (h1 : (decide (b.2 ≤ a.2)) = true) (h2 : (decide (c.2 ≤ b.2)) = true) :
    (decide (c.2 ≤ a.2)) = true := by
  rw [decide_eq_true_eq] at h1 h2 ⊢
  exact le_trans h2 h1

theorem valueCounts_mem (cells : List (Option Val)) (p : Option Val × ℕ)
    (hp : p ∈ valueCounts cells) :
    p.1 ∈ firstUniq cells ∧ p.2 = cells.count p.1 := by
  have hm := (mem_insSort _ p _).mp hp
  rcases List.mem_map.mp hm with ⟨v, hv, rfl⟩
  exact ⟨hv, rfl⟩

theorem valueCounts_head_ge (cells : List (Option Val)) (p : Option Val × ℕ)
    (t : List (Option Val × ℕ)) (heq : valueCounts cells = p :: t)
    (v : Option Val) (hv : v ∈ firstUniq cells) : cells.count v ≤ p.2 := by
  have hmem : (v, cells.count v) ∈ (firstUniq cells).map (fun w => (w, cells.count w)) :=
    List.mem_map_of_mem _ hv
  unfold valueCounts at heq
  have hle := insSort_head_le (fun a b => decide (b.2 ≤ a.2))
    (fun a b => vcLE_total a b) (fun a b c h1 h2 => vcLE_trans a b c h1 h2)
    _ p t (v, cells.count v) heq hmem
  exact decide_eq_true_eq.mp hle

theorem valueCounts_eq_nil_iff (cells : List (Option Val)) :
    valueCounts cells = [] ↔ cells = [] := by
  constructor
  · intro h
    cases hc : cells with
    | nil => rfl
    | cons x xs =>
      have hx : x ∈ firstUniq cells := by
        rw [hc]
        exact (mem_firstUniq x _).mpr (List.mem_cons_self x xs)
      have hmem : (x, cells.count x) ∈ valueCounts cells :=
        (mem_insSort _ _ _).mpr (List.mem_map_of_mem _ hx)
      rw [h] at hmem
      simp at hmem
  · intro h
    subst h
    rfl

theorem exists_max_class (cells : List (Option Val)) (h : nonNullVals cells ≠ []) :
    ∃ v, v ∈ firstUniq (nonNullVals cells) ∧
      (nonNullVals cells).count v = maxNNCount cells := by
  have hfu : firstUniq (nonNullVals cells) ≠ [] := by
    cases hnn : nonNullVals cells with
    | nil => exact absurd hnn h
    | cons a as => simp [firstUniq]
  have hmap : (firstUniq (nonNullVals cells)).map
      (fun v => (nonNullVals cells).count v) ≠ [] := by
    simp [hfu]
  have hmem := foldr_max_mem _ hmap
  rcases List.mem_map.mp hmem with ⟨v, hv, hveq⟩
  exact ⟨v, hv, hveq⟩

theorem modeList_ne_nil (cells : List (Option Val)) (h : nonNullVals cells ≠ []) :
    modeList cells ≠ [] := by
  rcases exists_max_class cells h with ⟨v, hv, hveq⟩
  have hvf : v ∈ (firstUniq (nonNullVals cells)).filter
      (fun w => decide ((nonNullVals cells).count w = maxNNCount cells)) :=
    List.mem_filter.mpr ⟨hv, decide_eq_true hveq⟩
  have : v ∈ modeList cells := (mem_insSort _ _ _).mpr hvf
  exact List.ne_nil_of_mem this

theorem modeList_nil_of (cells : List (Option Val)) (h : nonNullVals cells = []) :
    modeList cells = [] := by
  unfold modeList
  rw [h]
  rfl

theorem pdMode_none_iff (cells : List (Option Val)) :
    pdMode cells = none ↔ nonNullVals cells = [] := by
  unfold pdMode
  constructor
  · intro h
    by_contra hne
    have hml := modeList_ne_nil cells hne
    cases hl : modeList cells with
    | nil => exact hml hl
    | cons v t =>
      rw [hl] at h
      simp at h
  · intro h
    rw [modeList_nil_of cells h]
    rfl

theorem pdMode_some_spec (cells : List (Option Val)) (s : String)
    (h : pdMode cells = some s) :
    ∃ v, v ∈ nonNullVals cells ∧ s = valToStr v ∧
      (nonNullVals cells).count v = maxNNCount cells ∧
      (∀ w ∈ nonNullVals cells, (nonNullVals cells).count w ≤ maxNNCount cells) ∧
      (∀ w ∈ nonNullVals cells,
        (nonNullVals cells).count w = maxNNCount cells → valLE v w = true) := by
  unfold pdMode at h
  cases hl : modeList cells with
  | nil =>
    rw [hl] at h
    simp at h
  | cons v t =>
    rw [hl] at h
    simp only [List.head?_cons, Option.map_some] at h
    have hvm : v ∈ modeList cells := by
      rw [hl]
      exact List.mem_cons_self v t
    have hvf := (mem_insSort _ _ _).mp hvm
    rcases List.mem_filter.mp hvf with ⟨hvu, hvc⟩
    rw [decide_eq_true_eq] at hvc
    refine ⟨v, (mem_firstUniq v _).mp hvu, (Option.some_inj.mp h).symm, hvc, ?_, ?_⟩
    · intro w hw
      exact le_foldr_max _ _ (List.mem_map_of_mem _ ((mem_firstUniq w _).mpr hw))
    · intro w hw hwc
      have hwf : w ∈ (firstUniq (nonNullVals cells)).filter
          (fun u => decide ((nonNullVals cells).count u = maxNNCount cells)) :=
        List.mem_filter.mpr ⟨(mem_firstUniq w _).mpr hw, decide_eq_true hwc⟩
      exact insSort_head_le valLE valLE_total valLE_trans _ v t w hl hwf

theorem quality_flags_ok_elim (df : DataFrame) (m : ℚ) (flags : QualityFlags)
    (h : compute_quality_flags df m = .ok flags) :
    flags.high_missing_cols = highMissingCols df m ∧
    flags.constant_columns = constantCols df ∧
    highCardEntries df.nrows (compute_categorical_stats df 5).stats =
      .ok flags.high_cardinality_cols ∧
    flags.suspicious_id_duplicates = suspiciousEntries df ∧
    flags.many_zeros_cols = manyZerosEntries df ∧
    flags.has_suspicious_id_duplicates = decide (0 < (suspiciousEntries df).length) ∧
    flags.quality_penalties = penaltiesOfCounts (highMissingCols df m).length
      (constantCols df).length flags.high_cardinality_cols.length
      (suspiciousEntries df).length (manyZerosEntries df).length ∧
    flags.quality_score = scoreOfCounts (highMissingCols df m).length
      (constantCols df).length flags.high_cardinality_cols.length
      (suspiciousEntries df).length (manyZerosEntries df).length := by
  unfold compute_quality_flags at h
  cases hE : highCardEntries df.nrows (compute_categorical_stats df 5).stats with
  | error e =>
    rw [hE] at h
    simp at h
  | ok hc =>
    rw [hE] at h
    simp only [Except.ok.injEq] at h
    subst h
    refine ⟨rfl, rfl, ?_, rfl, rfl, rfl, rfl, rfl⟩
    simp [hE]

/-- C6: Holding the penalty weights fixed, the quality score computed
by `compute_quality_flags`' scoring step is monotonically
non-increasing in each rule's triggered-evidence count: enlarging any
count never increases the score. -/
theorem c6_score_antitone (hm cc hc idd mz hm' cc' hc' idd' mz' : ℕ)
    (h1 : hm ≤ hm') (h2 : cc ≤ cc') (h3 : hc ≤ hc') (h4 : idd ≤ idd')
    (h5 : mz ≤ mz') :
    scoreOfCounts hm' cc' hc' idd' mz' ≤ scoreOfCounts hm cc hc idd mz := by
  simp only [scoreOfCounts, totalPenalty, penaltiesOfCounts]
  apply max_le_max (le_refl 0)
  push_cast
  have g1 : (hm : ℤ) * 15 ≤ (hm' : ℤ) * 15 := by
    have := Int.ofNat_le.mpr h1
    nlinarith
  have g2 : (cc : ℤ) * 10 ≤ (cc' : ℤ) * 10 := by
    have := Int.ofNat_le.mpr h2
    nlinarith
  have g3 : (hc : ℤ) * 8 ≤ (hc' : ℤ) * 8 := by
    have := Int.ofNat_le.mpr h3
    nlinarith
  have g4 : (idd : ℤ) * 12 ≤ (idd' : ℤ) * 12 := by
    have := Int.ofNat_le.mpr h4
    nlinarith
  have g5 : (mz : ℤ) * 7 ≤ (mz' : ℤ) * 7 := by
    have := Int.ofNat_le.mpr h5
    nlinarith
  linarith

/-- Witness for C6: one extra constant column lowers the score from
100 to 90. -/
theorem c6_witness :
    scoreOfCounts 0 0 0 0 0 = 100 ∧ scoreOfCounts 0 1 0 0 0 = 90 ∧
    scoreOfCounts 0 1 0 0 0 ≤ scoreOfCounts 0 0 0 0 0 :=
  ⟨by decide, by decide,
    c6_score_antitone 0 0 0 0 0 0 1 0 0 0 (by decide) (by decide) (by decide)
      (by decide) (by decide)⟩

/-- C1: whenever `compute_quality_flags` returns a result, its quality
score equals `max 0 (100 - total_penalty)` with the total penalty the
sum over the five rules of evidence count times the fixed weights
{high_missing: 15, constant_cols: 10, high_cardinality: 8,
id_duplicates: 12, many_zeros: 7}, and the per-rule penalty breakdown
is exposed alongside the score. -/
theorem c1_quality_score_formula (df : DataFrame) (m : ℚ) (flags : QualityFlags)
    (h : compute_quality_flags df m = .ok flags) :
    flags.quality_score =
      max 0 (100 - ((flags.high_missing_cols.length * 15
        + flags.constant_columns.length * 10
        + flags.high_cardinality_cols.length * 8
        + flags.suspicious_id_duplicates.length * 12
        + flags.many_zeros_cols.length * 7 : ℕ) : ℤ)) ∧
    flags.quality_penalties =
      { high_missing := flags.high_missing_cols.length * 15
        constant_cols := flags.constant_columns.length * 10
        high_cardinality := flags.high_cardinality_cols.length * 8
        id_duplicates := flags.suspicious_id_duplicates.length * 12
        many_zeros := flags.many_zeros_cols.length * 7 } := by
  obtain ⟨h1, h2, _, h4, h5, _, h7, h8⟩ := quality_flags_ok_elim df m flags h
  constructor
  · rw [h8, h1, h2, h4, h5]
    rfl
  · rw [h7, h1, h2, h4, h5]
    rfl

/-- Witness for C1 at spec scenario 5: one constant column and no
other triggered rule gives score exactly 90 with penalty breakdown
(0, 10, 0, 0, 0). -/
theorem c1_witness :
    compute_quality_flags df5 (3 / 10) = .ok flags5 ∧
    flags5.quality_score = 90 ∧
    flags5.quality_penalties = ⟨0, 10, 0, 0, 0⟩ ∧
    (flags5.quality_score =
      max 0 (100 - ((flags5.high_missing_cols.length * 15
        + flags5.constant_columns.length * 10
        + flags5.high_cardinality_cols.length * 8
        + flags5.suspicious_id_duplicates.length * 12
        + flags5.many_zeros_cols.length * 7 : ℕ) : ℤ)) ∧
     flags5.quality_penalties =
      { high_missing := flags5.high_missing_cols.length * 15
        constant_cols := flags5.constant_columns.length * 10
        high_cardinality := flags5.high_cardinality_cols.length * 8
        id_duplicates := flags5.suspicious_id_duplicates.length * 12
        many_zeros := flags5.many_zeros_cols.length * 7 }) :=
  ⟨by decide, by decide, by decide,
    c1_quality_score_formula df5 (3 / 10) flags5 (by decide)⟩

/-- C8: for every numeric column of a table with a positive row
count, `compute_numeric_stats` reports `zeros_count` as the number of
cells exactly equal to 0 (null cells never count as zero) and
`zeros_share` as `zeros_count / row_count`, with the full row count —
null cells included — as the denominator. -/
theorem c8_zeros_stats (df : DataFrame) (c : Col) (hc : c ∈ df.cols)
    (hk : c.kind = .numeric) (hpos : 0 < df.nrows) :
    (c.name, numColStats df.nrows c.cells) ∈ (compute_numeric_stats df).stats ∧
    (numColStats df.nrows c.cells).zeros_count = c.cells.count (some (.vnum 0)) ∧
    (numColStats df.nrows c.cells).zeros_share =
      .val ((c.cells.count (some (.vnum 0)) : ℚ) / (df.nrows : ℚ)) := by
  refine ⟨?_, ?_, ?_⟩
  · exact List.mem_map_of_mem _ (List.mem_filter.mpr ⟨hc, decide_eq_true hk⟩)
  · show (numVals c.cells).count 0 = _
    exact count_numVals c.cells 0
  · show npDiv ((numVals c.cells).count 0) df.nrows = _
    rw [count_numVals]
    unfold npDiv
    have hne : ((df.nrows : ℚ)) ≠ 0 := by
      exact_mod_cast Nat.pos_iff_ne_zero.mp hpos
    rw [if_neg hne]

/-- Witness for C8 at spec scenario 3: `B=[0,0,1,2,3]` yields
`zeros_count = 2` and `zeros_share = 2/5 = 0.4`. -/
theorem c8_witness :
    (colB8 ∈ df8.cols ∧ colB8.kind = .numeric ∧ 0 < df8.nrows) ∧
    ((colB8.name, numColStats df8.nrows colB8.cells) ∈ (compute_numeric_stats df8).stats ∧
     (numColStats df8.nrows colB8.cells).zeros_count = colB8.cells.count (some (.vnum 0)) ∧
     (numColStats df8.nrows colB8.cells).zeros_share =
       .val ((colB8.cells.count (some (.vnum 0)) : ℚ) / (df8.nrows : ℚ))) ∧
    (numColStats df8.nrows colB8.cells).zeros_count = 2 ∧
    (numColStats df8.nrows colB8.cells).zeros_share = .val (2 / 5) :=
  ⟨⟨by decide, by decide, by decide⟩,
   c8_zeros_stats df8 colB8 (by decide) (by decide) (by decide),
   by decide, by decide⟩

/-- C3 counterexample: for the all-null numeric column `A` of `df3`
(zero non-null values), `compute_numeric_stats` reports the standard
deviation as the float NaN — `StdVal.nan` models the Python value
`float('nan')`, a NaN silently coerced to a float — and not as any
explicit "undefined" marker; the mean is likewise the float NaN. -/
theorem c3_counterexample :
    (compute_numeric_stats df3).stats.map (fun p => (p.1, p.2.std)) = [("A", StdVal.nan)] ∧
    (compute_numeric_stats df3).stats.map (fun p => (p.1, p.2.mean)) = [("A", PyFloat.nan)] ∧
    df3.cols.map (fun c => numVals c.cells) = [[]] := by
  refine ⟨by decide, by decide, by decide⟩

/-- C3 (amended): for every numeric column with 0 or 1 non-null
values, `compute_numeric_stats` reports the sample standard deviation
as the float NaN (`float(series.std())` silently coerces the NaN), not
as an explicit "undefined" marker and not as the number 0. -/
theorem c3_std_is_float_nan (df : DataFrame) (c : Col) (hc : c ∈ df.cols)
    (hk : c.kind = .numeric) (hn : (numVals c.cells).length ≤ 1) :
    (c.name, numColStats df.nrows c.cells) ∈ (compute_numeric_stats df).stats ∧
    (numColStats df.nrows c.cells).std = StdVal.nan := by
  refine ⟨?_, ?_⟩
  · exact List.mem_map_of_mem _ (List.mem_filter.mpr ⟨hc, decide_eq_true hk⟩)
  · show sampleStd (numVals c.cells) = StdVal.nan
    unfold sampleStd
    rw [if_pos hn]

/-- Witness for C3 at the all-null column `A` of `df3`. -/
theorem c3_witness :
    (colA3 ∈ df3.cols ∧ colA3.kind = .numeric ∧ (numVals colA3.cells).length ≤ 1) ∧
    ((colA3.name, numColStats df3.nrows colA3.cells) ∈ (compute_numeric_stats df3).stats ∧
     (numColStats df3.nrows colA3.cells).std = StdVal.nan) :=
  ⟨⟨by decide, by decide, by decide⟩,
   c3_std_is_float_nan df3 colA3 (by decide) (by decide) (by decide)⟩

/-- C5 counterexample: the column `B = ['a','b',null]` contains one
null and two distinct non-null values, yet `compute_categorical_stats`
reports `unique_count = 2`, not `2 + 1 = 3`: the null is not counted
as an additional value class (`nunique()` drops nulls). -/
theorem c5_counterexample :
    (compute_categorical_stats dfB 5).stats.map (fun p => (p.1, p.2.unique_count)) =
      [("B", 2)] ∧
    colBB.cells.count none = 1 ∧
    (nonNullVals colBB.cells).toFinset.card = 2 ∧
    (2 : ℕ) ≠ 2 + 1 := by
  refine ⟨by decide, by decide, by decide, by decide⟩

/-- C5 (amended): for every categorical column — whether or not it
contains nulls — the `unique_count` reported by
`compute_categorical_stats` equals the number of distinct non-null
values; a null never contributes an additional value class. -/
theorem c5_unique_count (df : DataFrame) (tk : ℤ) (c : Col) (hc : c ∈ df.cols)
    (hk : c.kind = .obj) :
    (c.name, catColStats tk c.cells) ∈ (compute_categorical_stats df tk).stats ∧
    (catColStats tk c.cells).unique_count = (nonNullVals c.cells).toFinset.card := by
  refine ⟨?_, ?_⟩
  · exact List.mem_map_of_mem _ (List.mem_filter.mpr ⟨hc, decide_eq_true hk⟩)
  · show nuniqueNN c.cells = _
    unfold nuniqueNN
    exact length_firstUniq _

/-- Witness for C5 at the column `B = ['a','b',null]` of `dfB`. -/
theorem c5_witness :
    (colBB ∈ dfB.cols ∧ colBB.kind = .obj) ∧
    ((colBB.name, catColStats 5 colBB.cells) ∈ (compute_categorical_stats dfB 5).stats ∧
     (catColStats 5 colBB.cells).unique_count = (nonNullVals colBB.cells).toFinset.card) ∧
    (catColStats 5 colBB.cells).unique_count = 2 :=
  ⟨⟨by decide, by decide⟩,
   c5_unique_count dfB 5 colBB (by decide) (by decide),
   by decide⟩

/-- C4 counterexample: `generate_report_data` completes normally on a
table with every configuration parameter out of domain —
`max_hist_columns = -3` (not positive), `top_k_categories = 0` (not
positive) and `min_missing_share = 7/5` (outside `[0,1]`) — echoing
the out-of-domain values instead of failing with a configuration
error. -/
theorem c4_counterexample :
    (generate_report_data df1 (-3) 0 (7 / 5) "t").map (·.report_params) =
      .ok ⟨-3, 0, 7 / 5, "t"⟩ ∧
    ¬ (0 : ℤ) < -3 ∧ ¬ (0 : ℤ) < 0 ∧ ¬ ((7 : ℚ) / 5 ≤ 1) := by
  refine ⟨by decide, by decide, by decide, by decide⟩

/-- C4 (amended): `generate_report_data` performs no validation of its
configuration parameters: for every table and every parameter
combination — in or out of domain — it produces a report exactly when
the quality scorer succeeds, echoing the parameters unchanged in
`report_params`; the only possible failure is the scorer's division
error, never a configuration error. -/
theorem c4_no_validation (df : DataFrame) (mh tk : ℤ) (ms : ℚ) (ti : String) :
    (generate_report_data df mh tk ms ti).map (·.report_params) =
      (compute_quality_flags df ms).map
        (fun _ => ({ max_hist_columns := mh, top_k_categories := tk,
                     min_missing_share := ms, title := ti } : ReportParams)) := by
  unfold generate_report_data
  cases h : compute_quality_flags df ms with
  | error e => rfl
  | ok qf => rfl

/-- C2 counterexample: for the zero-row table `df0` with one
categorical column, the per-column null shares and the total null
share are the float NaN (`0/0`), not the value 0, and
`compute_quality_flags` fails with a `ZeroDivisionError` — the
cardinality ratio divides two Python ints by `len(df) = 0` — so the
pipeline does not complete. -/
theorem c2_counterexample :
    (compute_missing_stats df0).missing_shares = [("B", PyFloat.nan)] ∧
    (compute_missing_stats df0).total_missing_share = PyFloat.nan ∧
    compute_quality_flags df0 (3 / 10) = .error "ZeroDivisionError" := by
  refine ⟨by decide, by decide, by decide⟩

/-- C2 (amended): for every well-formed zero-row table, each
per-column null share, the total null share, and each numeric
zero-share evaluate to the float NaN (NumPy division of 0 by 0), not
to 0; `compute_quality_flags` raises `ZeroDivisionError` exactly when
a categorical column is present, and only then does the pipeline fail
to complete. -/
theorem c2_zero_rows (df : DataFrame) (m : ℚ) (hwf : df.wf) (h0 : df.nrows = 0) :
    (∀ p ∈ (compute_missing_stats df).missing_shares, p.2 = PyFloat.nan) ∧
    (compute_missing_stats df).total_missing_share = PyFloat.nan ∧
    (∀ p ∈ (compute_numeric_stats df).stats, p.2.zeros_share = PyFloat.nan) ∧
    (compute_quality_flags df m = .error "ZeroDivisionError" ↔
      (compute_categorical_stats df 5).categorical_cols ≠ []) := by
  have hcells : ∀ c ∈ df.cols, c.cells = [] := by
    intro c hcc
    have hl := hwf c hcc
    rw [h0] at hl
    exact List.length_eq_zero.mp hl
  refine ⟨?_, ?_, ?_, ?_⟩
  · intro p hp
    simp only [compute_missing_stats, List.map_map, List.mem_map] at hp
    rcases hp with ⟨c, hcc, rfl⟩
    have hz : nullCount c.cells = 0 := by
      rw [hcells c hcc]
      rfl
    simp [hz, h0, npDiv]
  · simp only [compute_missing_stats]
    have hz : ((df.cols.map (fun c => (c.name, nullCount c.cells))).map (·.2)).sum = 0 := by
      apply List.sum_eq_zero
      intro x hx
      simp only [List.map_map, List.mem_map] at hx
      rcases hx with ⟨c, hcc, rfl⟩
      show nullCount c.cells = 0
      rw [hcells c hcc]
      rfl
    rw [hz]
    rw [h0]
    simp [npDiv]
  · intro p hp
    simp only [compute_numeric_stats, List.mem_map] at hp
    rcases hp with ⟨c, hcc, rfl⟩
    have hcel : c.cells = [] := hcells c (List.mem_of_mem_filter hcc)
    show npDiv ((numVals c.cells).count 0) df.nrows = PyFloat.nan
    rw [hcel, h0]
    rfl
  · cases hcs : df.cols.filter (fun c => decide (c.kind = .obj)) with
    | nil =>
      have h1 : (compute_categorical_stats df 5).stats = [] := by
        simp [compute_categorical_stats, hcs]
      have h2 : (compute_categorical_stats df 5).categorical_cols = [] := by
        simp [compute_categorical_stats, hcs]
      constructor
      · intro herr
        unfold compute_quality_flags at herr
        rw [h1] at herr
        simp [highCardEntries] at herr
      · intro hne
        exact absurd h2 hne
    | cons c cs =>
      have h1 : (compute_categorical_stats df 5).stats =
          (c.name, catColStats 5 c.cells) :: cs.map (fun d => (d.name, catColStats 5 d.cells)) := by
        simp [compute_categorical_stats, hcs]
      have h2 : (compute_categorical_stats df 5).categorical_cols ≠ [] := by
        simp [compute_categorical_stats, hcs]
      constructor
      · intro _
        exact h2
      · intro _
        unfold compute_quality_flags
        rw [h1, h0]
        simp [highCardEntries]

/-- Witness for C2 at `df0`. -/
theorem c2_witness :
    (df0.wf ∧ df0.nrows = 0) ∧
    ((∀ p ∈ (compute_missing_stats df0).missing_shares, p.2 = PyFloat.nan) ∧
     (compute_missing_stats df0).total_missing_share = PyFloat.nan ∧
     (∀ p ∈ (compute_numeric_stats df0).stats, p.2.zeros_share = PyFloat.nan) ∧
     (compute_quality_flags df0 (3 / 10) = .error "ZeroDivisionError" ↔
       (compute_categorical_stats df0 5).categorical_cols ≠ [])) :=
  ⟨⟨by
      intro c hcc
      simp only [df0, List.mem_singleton] at hcc
      subst hcc
      rfl,
    by decide⟩,
   c2_zero_rows df0 (3 / 10)
     (by
       intro c hcc
       simp only [df0, List.mem_singleton] at hcc
       subst hcc
       rfl)
     (by decide)⟩

theorem pyIn_ID_lower (s : String) (h : pyIn "ID" s = true) :
    pyIn "id" (lowerStr s) = true := by
  unfold pyIn at h ⊢
  have hmap := hasSubstrL_map pyLower "ID".toList s.toList h
  have h1 : ("ID".toList).map pyLower = "id".toList := by decide
  have h2 : (lowerStr s).toList = s.toList.map pyLower := rfl
  rw [h2, ← h1]
  exact hmap

/-- C7: whenever `compute_quality_flags` returns a result, the
suspicious-identifier evidence comes from exactly the columns whose
name contains the substring "id" case-insensitively (the source's
extra `or "ID" in col` disjunct is subsumed by `"id" in col.lower()`),
keeping each such column with at least one duplicated value together
with its `duplicate_count` (occurrences beyond the first of each
value) and `duplicate_share = duplicate_count / row_count`; the
boolean flag is set exactly when the evidence list is non-empty. -/
theorem c7_suspicious_ids (df : DataFrame) (m : ℚ) (flags : QualityFlags)
    (h : compute_quality_flags df m = .ok flags) :
    flags.suspicious_id_duplicates =
      (df.cols.filter (fun c => pyIn "id" (lowerStr c.name))).filterMap (fun c =>
        if 0 < dupCount c.cells then
          some { column := c.name, duplicate_count := dupCount c.cells,
                 duplicate_share := npDiv (dupCount c.cells) df.nrows }
        else none) ∧
    flags.has_suspicious_id_duplicates =
      decide (0 < flags.suspicious_id_duplicates.length) := by
  obtain ⟨-, -, -, h4, -, h6, -, -⟩ := quality_flags_ok_elim df m flags h
  have hfilter : df.cols.filter (fun c => pyIn "id" (lowerStr c.name) || pyIn "ID" c.name) =
      df.cols.filter (fun c => pyIn "id" (lowerStr c.name)) := by
    apply List.filter_congr
    intro c _
    by_cases h1 : pyIn "id" (lowerStr c.name) = true
    · simp [h1]
    · by_cases h2 : pyIn "ID" c.name = true
      · exact absurd (pyIn_ID_lower c.name h2) h1
      · simp [h1, h2]
  constructor
  · rw [h4]
    unfold suspiciousEntries idCandidates
    rw [hfilter]
  · rw [h6, h4]

/-- Witness for C7 at spec scenario 6: `user_id=[1,2,2,3,4]` triggers
the flag with `duplicate_count = 1` and `duplicate_share = 1/5 =
0.2`. -/
theorem c7_witness :
    compute_quality_flags df7 (3 / 10) = .ok flags7 ∧
    (flags7.suspicious_id_duplicates =
      (df7.cols.filter (fun c => pyIn "id" (lowerStr c.name))).filterMap (fun c =>
        if 0 < dupCount c.cells then
          some { column := c.name, duplicate_count := dupCount c.cells,
                 duplicate_share := npDiv (dupCount c.cells) df7.nrows }
        else none) ∧
     flags7.has_suspicious_id_duplicates =
      decide (0 < flags7.suspicious_id_duplicates.length)) ∧
    flags7.suspicious_id_duplicates = [⟨"user_id", 1, .val (1 / 5)⟩] ∧
    flags7.has_suspicious_id_duplicates = true :=
  ⟨by decide,
   c7_suspicious_ids df7 (3 / 10) flags7 (by decide),
   by decide, by decide⟩

/-- C9 counterexample: in the column `M = ['b','a']` both values are
tied with frequency 1 and the first-encountered tied value is "b",
yet `compute_categorical_stats` reports mode "a": pandas `mode()`
returns the tied values sorted, it does not keep insertion order. -/
theorem c9_counterexample :
    (compute_categorical_stats dfM 5).stats.map (fun p => (p.1, p.2.mode)) =
      [("M", some "a")] ∧
    modeFirstEncountered colM.cells = some "b" ∧
    (some "a" : Option String) ≠ some "b" := by
  refine ⟨by decide, by decide, by decide⟩

/-- C9 (amended): for every categorical column, the mode reported by
`compute_categorical_stats` is (the string of) a most frequent
non-null value, with ties broken by sorting: the reported mode is the
least tied value in the `valLE` order, not the first-encountered one;
the absent marker (`none`) is reported exactly when the column has no
non-null value. -/
theorem c9_mode_sorted_ties (df : DataFrame) (tk : ℤ) (c : Col) (hc : c ∈ df.cols)
    (hk : c.kind = .obj) :
    (c.name, catColStats tk c.cells) ∈ (compute_categorical_stats df tk).stats ∧
    ((catColStats tk c.cells).mode = none ↔ nonNullVals c.cells = []) ∧
    (∀ s, (catColStats tk c.cells).mode = some s →
      ∃ v, v ∈ nonNullVals c.cells ∧ s = valToStr v ∧
        (∀ w ∈ nonNullVals c.cells,
          (nonNullVals c.cells).count w ≤ (nonNullVals c.cells).count v) ∧
        (∀ w ∈ nonNullVals c.cells,
          (nonNullVals c.cells).count w = (nonNullVals c.cells).count v →
            valLE v w = true)) := by
  refine ⟨List.mem_map_of_mem _ (List.mem_filter.mpr ⟨hc, decide_eq_true hk⟩), ?_, ?_⟩
  · show pdMode c.cells = none ↔ _
    exact pdMode_none_iff c.cells
  · intro s hs
    have hs' : pdMode c.cells = some s := hs
    rcases pdMode_some_spec c.cells s hs' with ⟨v, hv, hsv, hvmax, hall, htie⟩
    refine ⟨v, hv, hsv, ?_, ?_⟩
    · intro w hw
      rw [hvmax]
      exact hall w hw
    · intro w hw hwc
      exact htie w hw (by rw [hwc, hvmax])

/-- Witness for C9 at the tied column `M = ['b','a']`, whose reported
mode is "a", the sorted-first tied value. -/
theorem c9_witness :
    (colM ∈ dfM.cols ∧ colM.kind = .obj) ∧
    ((colM.name, catColStats 5 colM.cells) ∈ (compute_categorical_stats dfM 5).stats ∧
     ((catColStats 5 colM.cells).mode = none ↔ nonNullVals colM.cells = []) ∧
     (∀ s, (catColStats 5 colM.cells).mode = some s →
       ∃ v, v ∈ nonNullVals colM.cells ∧ s = valToStr v ∧
         (∀ w ∈ nonNullVals colM.cells,
           (nonNullVals colM.cells).count w ≤ (nonNullVals colM.cells).count v) ∧
         (∀ w ∈ nonNullVals colM.cells,
           (nonNullVals colM.cells).count w = (nonNullVals colM.cells).count v →
             valLE v w = true))) ∧
    (catColStats 5 colM.cells).mode = some "a" :=
  ⟨⟨by decide, by decide⟩,
   c9_mode_sorted_ties dfM 5 colM (by decide) (by decide),
   by decide⟩

/-- C10: in `compute_categorical_stats`, `mode_count` comes from
`value_counts(dropna=False)` (nulls included) while `mode` excludes
nulls; hence for every categorical column whose null class is strictly
more frequent than every non-null value, `mode_count` equals the null
count and differs from the frequency of the reported mode value. -/
theorem c10_mode_count_from_nulls (df : DataFrame) (tk : ℤ) (c : Col)
    (hc : c ∈ df.cols) (hk : c.kind = .obj)
    (hnull : ∀ o ∈ c.cells, o.isSome = true → c.cells.count o < c.cells.count none) :
    (c.name, catColStats tk c.cells) ∈ (compute_categorical_stats df tk).stats ∧
    (catColStats tk c.cells).mode_count = c.cells.count none ∧
    (∀ s, (catColStats tk c.cells).mode = some s →
      ∃ v, v ∈ nonNullVals c.cells ∧ s = valToStr v ∧
        c.cells.count (some v) ≠ (catColStats tk c.cells).mode_count) := by
  have hmc : (catColStats tk c.cells).mode_count = c.cells.count none := by
    show (match valueCounts c.cells with | [] => 0 | p :: _ => p.2) = _
    cases hvc : valueCounts c.cells with
    | nil =>
      have hnil : c.cells = [] := (valueCounts_eq_nil_iff c.cells).mp hvc
      rw [hnil]
      rfl
    | cons p t =>
      have hpmem : p ∈ valueCounts c.cells := by
        rw [hvc]
        exact List.mem_cons_self p t
      obtain ⟨hp1, hp2⟩ := valueCounts_mem c.cells p hpmem
      cases hp1v : p.1 with
      | none =>
        show p.2 = _
        rw [hp2, hp1v]
      | some v =>
        exfalso
        have hvmem : (some v) ∈ c.cells := (mem_firstUniq _ _).mp (hp1v ▸ hp1)
        have hlt := hnull (some v) hvmem rfl
        have hnpos : 0 < c.cells.count none := lt_of_le_of_lt (Nat.zero_le _) hlt
        have hnone : (none : Option Val) ∈ c.cells := List.count_pos_iff.mp hnpos
        have hge := valueCounts_head_ge c.cells p t hvc none ((mem_firstUniq _ _).mpr hnone)
        rw [hp2, hp1v] at hge
        exact absurd hge (not_le.mpr hlt)
  refine ⟨List.mem_map_of_mem _ (List.mem_filter.mpr ⟨hc, decide_eq_true hk⟩), hmc, ?_⟩
  intro s hs
  have hs' : pdMode c.cells = some s := hs
  rcases pdMode_some_spec c.cells s hs' with ⟨v, hv, hsv, -, -, -⟩
  refine ⟨v, hv, hsv, ?_⟩
  rw [hmc]
  have hvmem : (some v) ∈ c.cells := (mem_nonNullVals c.cells v).mp hv
  exact Nat.ne_of_lt (hnull (some v) hvmem rfl)

/-- Witness for C10 at the column `T = [null, null, 'a']`: the null
class has frequency 2, the reported mode is "a" with frequency 1, and
`mode_count` is 2, the null count. -/
theorem c10_witness :
    (colT ∈ dfT.cols ∧ colT.kind = .obj ∧
     (∀ o ∈ colT.cells, o.isSome = true →
       colT.cells.count o < colT.cells.count none)) ∧
    ((colT.name, catColStats 5 colT.cells) ∈ (compute_categorical_stats dfT 5).stats ∧
     (catColStats 5 colT.cells).mode_count = colT.cells.count none ∧
     (∀ s, (catColStats 5 colT.cells).mode = some s →
       ∃ v, v ∈ nonNullVals colT.cells ∧ s = valToStr v ∧
         colT.cells.count (some v) ≠ (catColStats 5 colT.cells).mode_count)) ∧
    (catColStats 5 colT.cells).mode_count = 2 ∧
    (catColStats 5 colT.cells).mode = some "a" ∧
    colT.cells.count (some (.vstr "a")) = 1 :=
  ⟨⟨by decide, by decide, by decide⟩,
   c10_mode_count_from_nulls dfT 5 colT (by decide) (by decide) (by decide),
   by decide, by decide, by decide⟩

end EdaCore
